import Mathlib

/-!
Verification of the schema-introspection / tree-construction core of the
plotly documentation explorer (`src/pages/utils/fig_utils.py`), the
graph-object catalog helper `create_go_info_item`, and the documentation
collaborator `check_section_exists` (`src/pages/utils/web_utils.py`).

The Python code is shallowly embedded: Python objects reachable by the
introspection walk are modelled by `PyVal` / `GoObj`; per-level filter
ranges by `SplitSpec`; Python list slicing `l[a:b]` (with non-negative
bounds, the only bounds the UI produces) by `pySlice`; `sorted(set(xs))`
by `sortedDedup`; exceptions that the source raises or catches are
modelled with `Option` / `Except`.
-/

namespace PlotlyExplorer


/-- Python `l[a:b]` for non-negative `a`, `b`: elements with index in
`[a, min b (length l))`. No wraparound, out-of-range bounds clip. -/
def pySlice (a b : Nat) (l : List α) : List α := (l.take b).drop a

/-- Python `zip(xs, ys, zs)`: truncates at the shortest list. -/
def zip3 : List α → List β → List γ → List (α × β × γ)
  | a :: as', b :: bs, c :: cs => (a, b, c) :: zip3 as' bs cs
  | _, _, _ => []

/-- Concatenation of the images of `f`, used to describe what the
tree-extension loops append. -/
def flatMapL (f : α → List β) : List α → List β
  | [] => []
  | x :: xs => f x ++ flatMapL f xs

/-- Insert `x` into `l` before the first element `y` with `le x y` true. -/
def insertSorted (le : α → α → Bool) (x : α) : List α → List α
  | [] => [x]
  | y :: ys => if le x y then x :: y :: ys else y :: insertSorted le x ys

/-- Insertion sort; on duplicate-free input with a total order this yields
the same list as Python `sorted`. -/
def isort (le : α → α → Bool) : List α → List α
  | [] => []
  | x :: xs => insertSorted le x (isort le xs)

/-- Strict code-point lexicographic order on char lists: Python `<` on
strings. -/
def charsLT : List Char → List Char → Bool
  | [], [] => false
  | [], _ :: _ => true
  | _ :: _, [] => false
  | a :: as', b :: bs => if a = b then charsLT as' bs else decide (a.toNat < b.toNat)

/-- Python `a < b` on strings. -/
def strLT (a b : String) : Bool := charsLT a.data b.data

/-- Python `a <= b` on strings. -/
def strLE (a b : String) : Bool := strLT a b || a == b

/-- Python `sorted(set(xs))` on strings: deduplicate, then sort. -/
def sortedDedup (l : List String) : List String := isort strLE l.dedup

/-- Python `s.endswith(suf)`. -/
def pyEndsWith (s suf : String) : Bool := List.isSuffixOf suf.data s.data

/-- Fuel-driven worker for `replaceAll`; with fuel at least the length of
the list the fuel never runs out, since every step drops into a strictly
shorter list. -/
def replaceAllAux (pat rep : List Char) : Nat → List Char → List Char
  | _, [] => []
  | 0, l => l
  | fuel + 1, c :: rest =>
    if pat.isPrefixOf (c :: rest) then
      rep ++ replaceAllAux pat rep fuel (rest.drop (pat.length - 1))
    else
      c :: replaceAllAux pat rep fuel rest

/-- Replace every (leftmost, non-overlapping) occurrence of the non-empty
pattern `pat` in `l` by `rep`: Python `str.replace` on char lists. -/
def replaceAll (pat rep l : List Char) : List Char :=
  replaceAllAux pat rep l.length l

/-- Lookup in an insertion-ordered association list (Python `d[k]`,
`obj[k]`): first binding wins; `none` models the raised KeyError /
PlotlyKeyError / TypeError that the source catches. -/
def alistLookup (l : List (String × α)) (k : String) : Option α :=
  match l with
  | [] => none
  | (k', v) :: rest => if k' = k then some v else alistLookup rest k

/-- Python dict assignment `d[k] = v`: update in place (keeping the key's
position) if present, append otherwise. -/
def alistInsert (l : List (String × α)) (k : String) (v : α) :
    List (String × α) :=
  match l with
  | [] => [(k, v)]
  | (k', v') :: rest =>
    if k' = k then (k, v) :: rest else (k', v') :: alistInsert rest k v

/-- A value reachable while walking a plotly object:
`scalar` is a Python `str` or `tuple` (the `isinstance` check in the
source treats these as terminal); `blob` is any other non-iterable,
non-indexable value (e.g. `None`) whose iteration or indexing raises
`TypeError`; `node` is a nested plotly object, iterable over its property
keys and indexable by them. -/
inductive PyVal : Type where
  | scalar : PyVal
  | blob : PyVal
  | node : List (String × PyVal) → PyVal

/-- A root graph object: its class name, the parameter names of its
constructor signature (in declaration order, as `inspect.signature`
yields them), and its indexable properties `obj[key]`. -/
structure GoObj where
  className : String
  ctorParams : List String
  attrs : List (String × PyVal)

/-- A per-level `{start, end}` range; `none` at a level models the
KeyError-tolerated absence of that level's key in the `split` dict. -/
structure SplitSpec where
  level_1 : Option (Nat × Nat)
  level_2 : Option (Nat × Nat)
  level_3 : Option (Nat × Nat)

/-- A `(parent, label, id)` triple. -/
abbrev Triple := String × String × String

/-- The flattened tree: three parallel sequences. -/
structure Tree where
  parents : List String
  labels : List String
  ids : List String
deriving DecidableEq

/-- The `to_remove` denylist of `find_first_options`. -/
def to_remove : List String :=
  ["self", "arg", "kwargs", "annotations", "coloraxis", "geo", "images",
   "mapbox", "polar", "scene", "selections", "shapes", "sliders",
   "smith", "ternary", "updatemenus", "xaxis", "yaxis"]

/-- The `main_keys` loop of `find_first_options`: constructor parameters
not in the denylist and not ending in `src` or `defaults`. -/
def mainKeys (obj : GoObj) : List String :=
  obj.ctorParams.filter (fun p =>
    !(to_remove.contains p) && !(pyEndsWith p "src") &&
      !(pyEndsWith p "defaults"))

/-- The level-1 range of the split, when both are present. -/
def level1Range (split : Option SplitSpec) : Option (Nat × Nat) :=
  match split with
  | none => none
  | some s => s.level_1

/-- The level-2 range of the split, when both are present. -/
def level2Range (split : Option SplitSpec) : Option (Nat × Nat) :=
  match split with
  | none => none
  | some s => s.level_2

/-- The level-3 range of the split, when both are present. -/
def level3Range (split : Option SplitSpec) : Option (Nat × Nat) :=
  match split with
  | none => none
  | some s => s.level_3

/-- Apply an optional range by Python slicing; an absent range (absent
split, or KeyError on the level key) leaves the list unsliced. -/
def applyRange (r : Option (Nat × Nat)) (l : List α) : List α :=
  match r with
  | none => l
  | some (a, b) => pySlice a b l

/-- The zipped `(parent, label, id)` triples of `find_first_options`
before slicing: `labels = [class_name] + main_keys`,
`parents = [''] + [class_name]*len(main_keys)`,
`ids = [class_name] + [f'{parent}*{label}' if root_key != "" else
f'{label}' ...]`. -/
def rootZipped (obj : GoObj) (root_key : String) : List Triple :=
  ("", obj.className, obj.className) ::
    (mainKeys obj).map (fun k =>
      (obj.className, k,
        if root_key ≠ "" then obj.className ++ "*" ++ k else k))

/-- The zipped triples after the optional `level_1` slice. -/
def slicedZipped (obj : GoObj) (root_key : String)
    (split : Option SplitSpec) : List Triple :=
  applyRange (level1Range split) (rootZipped obj root_key)

/-- Unzip a list of triples into the three parallel tree sequences
(`parents, labels, ids = zip(*zipped)`). -/
def unzipTriples (l : List Triple) : Tree :=
  ⟨l.map (fun t => t.1), l.map (fun t => t.2.1), l.map (fun t => t.2.2)⟩

/-- `find_first_options`: build the root-level tree, slice it by the
level-1 range, and return the sliced tree, the sliced zipped triples and
their length. When the sliced list is empty, `zip(*zipped)` raises
`ValueError` (unpacking zero sequences into three names), modelled as
`.error`. -/
def find_first_options (obj : GoObj) (root_key : String)
    (split : Option SplitSpec) :
    Except String (Tree × List Triple × Nat) :=
  let zipped := slicedZipped obj root_key split
  match zipped with
  | [] => Except.error "ValueError: not enough values to unpack"
  | _ => Except.ok (unzipTriples zipped, zipped, zipped.length)

/-- The candidate options the mid pass derives from one successfully
indexed nested node: `sorted(set(obj[label]))` with `src`/`defaults`
suffix exclusion. -/
def midFiltered (kvs : List (String × PyVal)) : List String :=
  (sortedDedup (kvs.map Prod.fst)).filter (fun k =>
    !(pyEndsWith k "src") && !(pyEndsWith k "defaults"))

/-- The `if split is not None: try: options[label] = options[label][...]`
block of `find_mid_options`: re-slice the label's entry when the split
and its `level_2` key exist and the label has an entry; any KeyError is
passed over. -/
def midApplySplit (options : List (String × List String))
    (split : Option SplitSpec) (label : String) :
    List (String × List String) :=
  match split with
  | none => options
  | some s =>
    match s.level_2 with
    | none => options
    | some (a, b) =>
      match alistLookup options label with
      | none => options
      | some cur => alistInsert options label (pySlice a b cur)

/-- One iteration of the option-collection loop of `find_mid_options`
over a label of the current tree. A failed or non-iterable lookup
(`TypeError`, `KeyError`, `PlotlyKeyError`) skips the label entirely; a
scalar value skips enumeration but still reaches the split block; a node
stores its filtered keys, updates the pre-slice maximum, then reaches the
split block. -/
def midStep (obj : GoObj) (split : Option SplitSpec)
    (acc : List (String × List String) × Nat) (label : String) :
    List (String × List String) × Nat :=
  match alistLookup obj.attrs label with
  | none => acc
  | some PyVal.blob => acc
  | some PyVal.scalar => (midApplySplit acc.1 split label, acc.2)
  | some (PyVal.node kvs) =>
    let opts := midFiltered kvs
    (midApplySplit (alistInsert acc.1 label opts) split label,
      max acc.2 opts.length)

/-- The options dict and pre-slice maximum collected by the first loop of
`find_mid_options` over the given labels. -/
def midCollect (obj : GoObj) (split : Option SplitSpec)
    (labels : List String) : List (String × List String) × Nat :=
  labels.foldl (midStep obj split) ([], 0)

/-- The options dict alone. -/
def midOptionsOf (obj : GoObj) (split : Option SplitSpec)
    (labels : List String) : List (String × List String) :=
  (midCollect obj split labels).1

/-- The parent string the mid pass uses for children of `new_key`. -/
def midParentStr (root_key new_key : String) : String :=
  if root_key ≠ "" then root_key ++ "*" ++ new_key else new_key

/-- The tree-extension step of the second loop of `find_mid_options`:
append one node per option of one collected entry. -/
def midExtend (root_key : String) (t : Tree) (kv : String × List String) :
    Tree :=
  { parents :=
      t.parents ++ List.replicate kv.2.length (midParentStr root_key kv.1),
    labels := t.labels ++ kv.2,
    ids := t.ids ++ kv.2.map (fun o => midParentStr root_key kv.1 ++ "*" ++ o) }

/-- `find_mid_options`: collect options for every current label, then
extend the tree with one node per option. -/
def find_mid_options (tree : Tree) (obj : GoObj) (root_key : String)
    (split : Option SplitSpec) : Tree × Nat :=
  let collected := midCollect obj split tree.labels
  (collected.1.foldl (midExtend root_key) tree, collected.2)

/-- Lexicographic order on `(parent, label, id)` triples: Python tuple
comparison. -/
def tripleLE (a b : Triple) : Bool :=
  if a.1 = b.1 then
    if a.2.1 = b.2.1 then strLE a.2.2 b.2.2
    else strLT a.2.1 b.2.1
  else strLT a.1 b.1

/-- The `zip_diff` of `find_last_options`: the sorted, deduplicated
triples of the current tree that are not among the pre-mid-pass zipped
triples. -/
def zipDiff (tree : Tree) (zipped : List Triple) : List Triple :=
  (isort tripleLE (zip3 tree.parents tree.labels tree.ids).dedup).filter
    (fun t => !(zipped.contains t))

/-- `parent.replace(f'{root_key}*', '')` of `find_last_options`. -/
def stripRootKey (root_key parent : String) : String :=
  ⟨replaceAll (root_key ++ "*").data [] parent.data⟩

/-- Resolve `root_go_obj[parent][label]` for the leaf pass; `none` models
any raised `TypeError` / `PlotlyKeyError` (absent key, or indexing a
scalar or non-indexable value). -/
def leafLookup (obj : GoObj) (parent' label : String) : Option PyVal :=
  match alistLookup obj.attrs parent' with
  | some (PyVal.node kvs) => alistLookup kvs label
  | _ => none

/-- The leaf labels one `zip_diff` triple contributes after the optional
level-3 slice: keys of a resolved nested node, sorted, deduplicated, and
excluding the `src` suffix (only `src` at this level). Failures and
scalar / non-iterable values contribute nothing. -/
def leafChildren (obj : GoObj) (split : Option SplitSpec)
    (root_key : String) (t : Triple) : List String :=
  match leafLookup obj (stripRootKey root_key t.1) t.2.1 with
  | some (PyVal.node kvs) =>
    applyRange (level3Range split)
      ((sortedDedup (kvs.map Prod.fst)).filter (fun k =>
        !(pyEndsWith k "src")))
  | _ => []

/-- The pre-slice candidate count of one `zip_diff` triple, as used for
the running `list_max` of `find_last_options`. -/
def leafCount (obj : GoObj) (root_key : String) (t : Triple) : Nat :=
  match leafLookup obj (stripRootKey root_key t.1) t.2.1 with
  | some (PyVal.node kvs) =>
    ((sortedDedup (kvs.map Prod.fst)).filter (fun k =>
      !(pyEndsWith k "src"))).length
  | _ => 0

/-- The loop body of `find_last_options`: extend the tree with the leaf
labels of one `zip_diff` triple and update the running maximum. -/
def leafExtend (obj : GoObj) (split : Option SplitSpec) (root_key : String)
    (acc : Tree × Nat) (t : Triple) : Tree × Nat :=
  let kids := leafChildren obj split root_key t
  ({ parents := acc.1.parents ++ List.replicate kids.length t.2.2,
     labels := acc.1.labels ++ kids,
     ids := acc.1.ids ++ kids.map (fun k => t.2.2 ++ "*" ++ k) },
    max acc.2 (leafCount obj root_key t))

/-- `find_last_options`: for each newly-added triple, resolve the nested
value and extend the tree with its filtered, sliced keys, tracking the
pre-slice maximum. -/
def find_last_options (tree : Tree) (zipped : List Triple) (obj : GoObj)
    (root_key : String) (split : Option SplitSpec) : Tree × Nat :=
  (zipDiff tree zipped).foldl (leafExtend obj split root_key) (tree, 0)

/-- `keys_search`: orchestrate the three passes; the `ValueError` of an
empty level-1 slice propagates to the caller. -/
def keys_search (obj : GoObj) (split : Option SplitSpec)
    (root_key : String) :
    Except String
      (List String × List String × List String × (Nat × Nat × Nat)) :=
  match find_first_options obj root_key split with
  | Except.error e => Except.error e
  | Except.ok (tree, zipped, zipped_len) =>
    let mid := find_mid_options tree obj root_key split
    let last := find_last_options mid.1 zipped obj root_key split
    Except.ok (last.1.parents, last.1.labels, last.1.ids,
      (zipped_len, mid.2, last.2))

/-- The parents component of `keys_search` at the default empty
`root_key`, or `[]` when it raised. -/
def ksParents (obj : GoObj) (split : Option SplitSpec) : List String :=
  match keys_search obj split "" with
  | Except.ok r => r.1
  | Except.error _ => []

/-- The labels component of `keys_search` at the default empty
`root_key`, or `[]` when it raised. -/
def ksLabels (obj : GoObj) (split : Option SplitSpec) : List String :=
  match keys_search obj split "" with
  | Except.ok r => r.2.1
  | Except.error _ => []

/-- The ids component of `keys_search` at the default empty `root_key`,
or `[]` when it raised. -/
def ksIds (obj : GoObj) (split : Option SplitSpec) : List String :=
  match keys_search obj split "" with
  | Except.ok r => r.2.2.1
  | Except.error _ => []

/-- The first (root-level) count reported by `keys_search` at the default
empty `root_key`, or `0` when it raised. -/
def ksFirstCount (obj : GoObj) (split : Option SplitSpec) : Nat :=
  match keys_search obj split "" with
  | Except.ok r => r.2.2.2.1
  | Except.error _ => 0

/-- Whether `keys_search` at the default empty `root_key` completed
without raising. -/
def ksIsOk (obj : GoObj) (split : Option SplitSpec) : Bool :=
  match keys_search obj split "" with
  | Except.ok _ => true
  | Except.error _ => false

/-- The colorbar value of the model Bar's marker: a nested plotly object
whose keys include both a `src`-suffixed and a `defaults`-suffixed
property, as `go.bar.marker.ColorBar` has. -/
def colorbarVal : PyVal :=
  PyVal.node
    [("bgcolor", PyVal.blob), ("ticklen", PyVal.blob),
     ("ticklensrc", PyVal.blob), ("tickformatstopdefaults", PyVal.node [])]

/-- The marker value of the model Bar: a nested plotly object
(`go.bar.Marker`) with scalar-free keys typical of the real object. -/
def barMarker : PyVal :=
  PyVal.node
    [("color", PyVal.blob), ("colorbar", colorbarVal),
     ("colorsrc", PyVal.blob),
     ("line", PyVal.node
        [("color", PyVal.blob), ("colorsrc", PyVal.blob),
         ("width", PyVal.blob), ("widthsrc", PyVal.blob)]),
     ("opacity", PyVal.blob)]

/-- A model of `go.Bar(name="trace 1")` restricted to the constructor
parameters `{arg, marker, metasrc, name, x, y}`: after denylist and
suffix exclusion its main keys are `marker, name, x, y`, the scenario of
the specification. `name` is a string (scalar), `x` and `y` are `None`
(non-iterable), `marker` is a nested object. -/
def barObj : GoObj :=
  { className := "Bar",
    ctorParams := ["arg", "marker", "metasrc", "name", "x", "y"],
    attrs :=
      [("marker", barMarker), ("name", PyVal.scalar),
       ("x", PyVal.blob), ("y", PyVal.blob)] }

/-- A filter keeping only zipped triples 1 and 2 at level 1 (the
`{level_1: {start: 1, end: 3}}` scenario of the specification). -/
def splitL1_13 : Option SplitSpec := some ⟨some (1, 3), none, none⟩

/-- A filter whose level-1 slice starts past every root candidate. -/
def splitL1_over : Option SplitSpec := some ⟨some (9, 12), none, none⟩

/-- The result of the HTTP fetch inside `check_section_exists`: either
the ids of the elements present in the fetched markup, or a raised
`requests.RequestException`. -/
inductive FetchResult : Type where
  | page : List String → FetchResult
  | requestError : FetchResult

/-- `check_section_exists(url)`: take the anchor after the last `#`,
fetch the page and look the anchor id up in the markup. On a transport
error the `except` clause only passes, so the subsequent
`soup.find(id=section_id)` reads the never-assigned local `soup` and the
function raises `UnboundLocalError`, modelled as `.error`. -/
def check_section_exists (url : String) (fetch : FetchResult) :
    Except String Bool :=
  let section_id := (url.splitOn "#").getLastD ""
  match fetch with
  | FetchResult.page elems => Except.ok (section_id ∈ elems)
  | FetchResult.requestError =>
    Except.error "UnboundLocalError: local variable referenced before assignment"

/-- A catalog entry's type: the class object passed to
`create_go_info_item` (e.g. `go.Bar`), identified by its `__name__`. -/
structure GoType where
  name : String

/-- A freshly constructed instance `object_type()` of a catalog type. -/
structure GoInstance where
  typeName : String
deriving DecidableEq

/-- Calling the class object: `object_type()`. -/
def constructInstance (t : GoType) : GoInstance := ⟨t.name⟩

/-- A value stored in the info dictionary: the constructed object or a
URL string. -/
inductive ItemVal : Type where
  | obj : GoInstance → ItemVal
  | str : String → ItemVal
deriving DecidableEq

/-- `create_go_info_item`: build the `{'object': ..., 'url_post': ...,
'url_pre_section': ...}` dictionary, defaulting `url_post` to the
lowercase class name and `url_pre_section` to the (possibly defaulted)
`url_post`. The association list keeps the dict's insertion order. -/
def create_go_info_item (object_type : GoType) (url_post : Option String)
    (url_pre_section : Option String) : List (String × ItemVal) :=
  let post :=
    match url_post with
    | none => object_type.name.toLower
    | some u => u
  let pre :=
    match url_pre_section with
    | none => post
    | some u => u
  [("object", ItemVal.obj (constructInstance object_type)),
   ("url_post", ItemVal.str post), ("url_pre_section", ItemVal.str pre)]

/-- Pairwise distinctness of the keys of an association list. -/
def KeysNodup (l : List (String × α)) : Prop :=
  l.Pairwise (fun a b => a.1 ≠ b.1)

/-- The parents the mid pass appends for a collected options list. -/
def midP (root_key : String) (options : List (String × List String)) :
    List String :=
  flatMapL (fun kv => List.replicate kv.2.length (midParentStr root_key kv.1))
    options

/-- The labels the mid pass appends for a collected options list. -/
def midL (options : List (String × List String)) : List String :=
  flatMapL (fun kv => kv.2) options

/-- The ids the mid pass appends for a collected options list. -/
def midI (root_key : String) (options : List (String × List String)) :
    List String :=
  flatMapL (fun kv => kv.2.map (fun o => midParentStr root_key kv.1 ++ "*" ++ o))
    options

/-- The parents the leaf pass appends for a `zip_diff` list. -/
def leafP (obj : GoObj) (split : Option SplitSpec) (root_key : String)
    (diff : List Triple) : List String :=
  flatMapL (fun t =>
    List.replicate (leafChildren obj split root_key t).length t.2.2) diff

/-- The labels the leaf pass appends for a `zip_diff` list. -/
def leafL (obj : GoObj) (split : Option SplitSpec) (root_key : String)
    (diff : List Triple) : List String :=
  flatMapL (fun t => leafChildren obj split root_key t) diff

/-- The ids the leaf pass appends for a `zip_diff` list. -/
def leafI (obj : GoObj) (split : Option SplitSpec) (root_key : String)
    (diff : List Triple) : List String :=
  flatMapL (fun t =>
    (leafChildren obj split root_key t).map (fun k => t.2.2 ++ "*" ++ k)) diff

/-- The tree after the root pass. -/
def treeOne (obj : GoObj) (root_key : String) (split : Option SplitSpec) :
    Tree :=
  unzipTriples (slicedZipped obj root_key split)

/-- The tree after the mid pass. -/
def treeTwo (obj : GoObj) (root_key : String) (split : Option SplitSpec) :
    Tree :=
  (find_mid_options (treeOne obj root_key split) obj root_key split).1

/-- The tree after the leaf pass. -/
def treeThree (obj : GoObj) (root_key : String) (split : Option SplitSpec) :
    Tree :=
  (find_last_options (treeTwo obj root_key split)
    (slicedZipped obj root_key split) obj root_key split).1

/-- The unsliced candidate list the mid pass can associate with a label:
the filtered keys of a successfully indexed nested node, `[]` otherwise. -/
def midCandidates (obj : GoObj) (k : String) : List String :=
  match alistLookup obj.attrs k with
  | some (PyVal.node kvs) => midFiltered kvs
  | _ => []

/-- What the mid-pass collection loop guarantees about one collected
entry: its key is one of the scanned labels, its candidate list is
duplicate-free, and every candidate comes from the filtered keys of the
node the key resolves to. -/
def EntryOk (obj : GoObj) (labels : List String)
    (kv : String × List String) : Prop :=
  kv.1 ∈ labels ∧ kv.2.Nodup ∧ ∀ x ∈ kv.2, x ∈ midCandidates obj kv.1

/-- Well-formedness of a flattened tree: every node after the first
refers to a parent that was emitted earlier in the id sequence. -/
def ParentOk (ps ids : List String) : Prop :=
  ∀ i, (hi : i < ps.length) → 0 < i → ps[i] ∈ ids.take i

/-- The level-1 filter retains the root triple: it is absent, or its
slice starts at 0 with a positive end. -/
def KeepsHead (split : Option SplitSpec) : Prop :=
  match level1Range split with
  | none => True
  | some p => p.1 = 0 ∧ 1 ≤ p.2

/-- No `*` occurs in the string: true of every plotly class name and
property name, which are Python identifiers. -/
def starFreeB (s : String) : Bool := !(s.data.contains '*')

/-- The keys of a depth-one nested node contain no `*`. -/
def keysStarFree1B : PyVal → Bool
  | PyVal.node kvs => kvs.all (fun kv => starFreeB kv.1)
  | _ => true

/-- The keys of a nested node and of its own nested nodes contain no
`*`. -/
def keysStarFree2B : PyVal → Bool
  | PyVal.node kvs => kvs.all (fun kv => starFreeB kv.1 && keysStarFree1B kv.2)
  | _ => true

/-- The class name, constructor parameters, and all walkable nested keys
of the object contain no `*`. -/
def objStarFreeB (obj : GoObj) : Bool :=
  starFreeB obj.className && obj.ctorParams.all starFreeB &&
    obj.attrs.all (fun kv => keysStarFree2B kv.2)

/-- The number of `*` characters in a string. -/
def countStar (s : String) : Nat := s.data.count '*'

lemma insertSorted_perm (le : α → α → Bool) (x : α) :
    ∀ l : List α, (insertSorted le x l).Perm (x :: l)
  | [] => List.Perm.refl _
  | y :: ys => by
    simp only [insertSorted]
    by_cases h : le x y = true
    · simp [h]
    · simp only [h]
      simp only [Bool.false_eq_true, if_false]
      exact ((insertSorted_perm le x ys).cons y).trans (List.Perm.swap x y ys)

lemma isort_perm (le : α → α → Bool) : ∀ l : List α, (isort le l).Perm l
  | [] => List.Perm.refl _
  | x :: xs =>
    (insertSorted_perm le x (isort le xs)).trans ((isort_perm le xs).cons x)

lemma mem_isort {le : α → α → Bool} {x : α} {l : List α} :
    x ∈ isort le l ↔ x ∈ l :=
  (isort_perm le l).mem_iff

lemma nodup_isort {le : α → α → Bool} {l : List α} (h : l.Nodup) :
    (isort le l).Nodup :=
  ((isort_perm le l).nodup_iff).mpr h

lemma mem_sortedDedup {x : String} {l : List String} :
    x ∈ sortedDedup l ↔ x ∈ l := by
  unfold sortedDedup
  rw [mem_isort, List.mem_dedup]

lemma nodup_sortedDedup (l : List String) : (sortedDedup l).Nodup :=
  nodup_isort (List.nodup_dedup l)

lemma pySlice_sublist (a b : Nat) (l : List α) : (pySlice a b l).Sublist l :=
  ((l.take b).drop_sublist a).trans (l.take_sublist b)

lemma applyRange_sublist (r : Option (Nat × Nat)) (l : List α) :
    (applyRange r l).Sublist l := by
  cases r with
  | none => exact List.Sublist.refl l
  | some p => exact pySlice_sublist p.1 p.2 l

lemma mem_applyRange {r : Option (Nat × Nat)} {l : List α} {x : α}
    (h : x ∈ applyRange r l) : x ∈ l :=
  (applyRange_sublist r l).mem h

lemma mem_flatMapL {f : α → List β} {x : β} :
    ∀ {l : List α}, x ∈ flatMapL f l ↔ ∃ a ∈ l, x ∈ f a
  | [] => by simp [flatMapL]
  | a :: rest => by
    simp only [flatMapL, List.mem_append, mem_flatMapL, List.mem_cons]
    constructor
    · rintro (h | ⟨b, hb, hx⟩)
      · exact ⟨a, Or.inl rfl, h⟩
      · exact ⟨b, Or.inr hb, hx⟩
    · rintro ⟨b, hb | hb, hx⟩
      · exact Or.inl (hb ▸ hx)
      · exact Or.inr ⟨b, hb, hx⟩

lemma length_flatMapL_congr {f g : α → List β} :
    ∀ {l : List α}, (∀ a ∈ l, (f a).length = (g a).length) →
      (flatMapL f l).length = (flatMapL g l).length
  | [], _ => rfl
  | a :: rest, h => by
    simp only [flatMapL, List.length_append]
    rw [h a (List.mem_cons_self a rest),
      length_flatMapL_congr (fun b hb => h b (List.mem_cons_of_mem a hb))]

lemma nodup_flatMapL {f : α → List β} :
    ∀ {l : List α}, (∀ a ∈ l, (f a).Nodup) →
      l.Pairwise (fun a b => ∀ x ∈ f a, x ∉ f b) → (flatMapL f l).Nodup
  | [], _, _ => List.nodup_nil
  | a :: rest, hN, hP => by
    simp only [flatMapL]
    rw [List.pairwise_cons] at hP
    refine List.Nodup.append (hN a (List.mem_cons_self a rest))
      (nodup_flatMapL (fun b hb => hN b (List.mem_cons_of_mem a hb)) hP.2) ?_
    intro x hxa hxr
    rcases mem_flatMapL.mp hxr with ⟨b, hb, hxb⟩
    exact hP.1 b hb x hxa hxb

lemma zip3_append {as' : List α} {bs' : List β} {cs' : List γ} :
    ∀ {as : List α} {bs : List β} {cs : List γ},
      bs.length = as.length → cs.length = as.length →
      zip3 (as ++ as') (bs ++ bs') (cs ++ cs') =
        zip3 as bs cs ++ zip3 as' bs' cs' := by
  intro as
  induction as with
  | nil =>
    intro bs cs hb hc
    simp only [List.length_nil] at hb hc
    rw [List.length_eq_zero] at hb hc
    subst hb; subst hc
    simp [zip3]
  | cons a arest ih =>
    intro bs cs hb hc
    cases bs with
    | nil => simp at hb
    | cons b brest =>
      cases cs with
      | nil => simp at hc
      | cons c crest =>
        simp only [List.length_cons] at hb hc
        simp only [List.cons_append, zip3, List.append_eq]
        rw [ih (by omega) (by omega)]

lemma mem_zip3_third {t : α × β × γ} :
    ∀ {as : List α} {bs : List β} {cs : List γ},
      t ∈ zip3 as bs cs → t.2.2 ∈ cs := by
  intro as
  induction as with
  | nil => intro bs cs h; simp [zip3] at h
  | cons a arest ih =>
    intro bs cs h
    cases bs with
    | nil => simp [zip3] at h
    | cons b brest =>
      cases cs with
      | nil => simp [zip3] at h
      | cons c crest =>
        simp only [zip3, List.mem_cons] at h
        rcases h with h | h
        · subst h; exact List.mem_cons_self _ _
        · exact List.mem_cons_of_mem _ (ih h)

lemma zip3_maps : ∀ l : List Triple,
    zip3 (l.map (fun t => t.1)) (l.map (fun t => t.2.1))
      (l.map (fun t => t.2.2)) = l
  | [] => rfl
  | t :: rest => by simp only [List.map_cons, zip3, zip3_maps rest]

lemma zip3_replicate_map (p : String) (f : String → γ) :
    ∀ opts : List String,
      zip3 (List.replicate opts.length p) opts (opts.map f) =
        opts.map (fun o => (p, o, f o))
  | [] => rfl
  | o :: rest => by
    simp only [List.length_cons, List.replicate_succ, List.map_cons, zip3,
      zip3_replicate_map p f rest]

lemma alistLookup_mem {l : List (String × α)} {k : String} {v : α} :
    alistLookup l k = some v → (k, v) ∈ l := by
  induction l with
  | nil => intro h; simp [alistLookup] at h
  | cons kv rest ih =>
    intro h
    rcases kv with ⟨k', v'⟩
    simp only [alistLookup] at h
    by_cases he : k' = k
    · rw [if_pos he] at h
      cases h
      subst he
      exact List.mem_cons_self _ _
    · rw [if_neg he] at h
      exact List.mem_cons_of_mem _ (ih h)

lemma mem_alistInsert {l : List (String × α)} {k : String} {v : α}
    {kv : String × α} :
    kv ∈ alistInsert l k v → kv = (k, v) ∨ kv ∈ l := by
  induction l with
  | nil => intro h; simp [alistInsert] at h; exact Or.inl h
  | cons kv' rest ih =>
    intro h
    rcases kv' with ⟨k', v'⟩
    simp only [alistInsert] at h
    by_cases he : k' = k
    · rw [if_pos he] at h
      rcases List.mem_cons.mp h with h | h
      · exact Or.inl h
      · exact Or.inr (List.mem_cons_of_mem _ h)
    · rw [if_neg he] at h
      rcases List.mem_cons.mp h with h | h
      · exact Or.inr (h ▸ List.mem_cons_self _ _)
      · rcases ih h with h | h
        · exact Or.inl h
        · exact Or.inr (List.mem_cons_of_mem _ h)

lemma alistLookup_alistInsert_ne {l : List (String × α)} {k k' : String}
    {v : α} (h : k ≠ k') :
    alistLookup (alistInsert l k v) k' = alistLookup l k' := by
  induction l with
  | nil => simp [alistInsert, alistLookup, h]
  | cons kv rest ih =>
    rcases kv with ⟨k0, v0⟩
    simp only [alistInsert]
    by_cases he : k0 = k
    · rw [if_pos he]
      simp only [alistLookup]
      rw [if_neg h, if_neg (he ▸ h)]
    · rw [if_neg he]
      simp only [alistLookup]
      by_cases he' : k0 = k'
      · rw [if_pos he', if_pos he']
      · rw [if_neg he', if_neg he', ih]

lemma keysNodup_alistInsert {l : List (String × α)} {k : String} {v : α}
    (h : KeysNodup l) : KeysNodup (alistInsert l k v) := by
  induction l with
  | nil => simp [alistInsert, KeysNodup]
  | cons kv rest ih =>
    rcases kv with ⟨k0, v0⟩
    rcases (List.pairwise_cons.mp h) with ⟨hhead, htail⟩
    simp only [alistInsert]
    by_cases he : k0 = k
    · rw [if_pos he]
      exact List.pairwise_cons.mpr ⟨fun b hb => he ▸ hhead b hb, htail⟩
    · rw [if_neg he]
      refine List.pairwise_cons.mpr ⟨?_, ih htail⟩
      intro b hb
      rcases mem_alistInsert hb with hb | hb
      · subst hb; exact he
      · exact hhead b hb

lemma midExtend_foldl (root_key : String) :
    ∀ (options : List (String × List String)) (t : Tree),
      options.foldl (midExtend root_key) t =
        ⟨t.parents ++ midP root_key options, t.labels ++ midL options,
          t.ids ++ midI root_key options⟩
  | [], t => by simp [midP, midL, midI, flatMapL]
  | kv :: rest, t => by
    rw [List.foldl_cons, midExtend_foldl root_key rest]
    simp [midExtend, midP, midL, midI, flatMapL, List.append_assoc]

lemma find_mid_options_eq (tree : Tree) (obj : GoObj) (root_key : String)
    (split : Option SplitSpec) :
    find_mid_options tree obj root_key split =
      (⟨tree.parents ++ midP root_key (midOptionsOf obj split tree.labels),
        tree.labels ++ midL (midOptionsOf obj split tree.labels),
        tree.ids ++ midI root_key (midOptionsOf obj split tree.labels)⟩,
       (midCollect obj split tree.labels).2) := by
  show (List.foldl (midExtend root_key) tree
      (midCollect obj split tree.labels).1,
    (midCollect obj split tree.labels).2) = _
  rw [midExtend_foldl]
  rfl

lemma leafExtend_foldl (obj : GoObj) (split : Option SplitSpec)
    (root_key : String) :
    ∀ (diff : List Triple) (t : Tree) (m : Nat),
      (diff.foldl (leafExtend obj split root_key) (t, m)).1 =
        ⟨t.parents ++ leafP obj split root_key diff,
         t.labels ++ leafL obj split root_key diff,
         t.ids ++ leafI obj split root_key diff⟩
  | [], t, m => by simp [leafP, leafL, leafI, flatMapL]
  | tr :: rest, t, m => by
    rw [List.foldl_cons]
    show ((rest.foldl (leafExtend obj split root_key)
      (leafExtend obj split root_key (t, m) tr))).1 = _
    rcases hs : leafExtend obj split root_key (t, m) tr with ⟨t', m'⟩
    rw [leafExtend_foldl obj split root_key rest t' m']
    simp only [leafExtend] at hs
    cases hs
    simp [leafP, leafL, leafI, flatMapL, List.append_assoc]

lemma find_last_options_tree (tree : Tree) (zipped : List Triple)
    (obj : GoObj) (root_key : String) (split : Option SplitSpec) :
    (find_last_options tree zipped obj root_key split).1 =
      ⟨tree.parents ++ leafP obj split root_key (zipDiff tree zipped),
       tree.labels ++ leafL obj split root_key (zipDiff tree zipped),
       tree.ids ++ leafI obj split root_key (zipDiff tree zipped)⟩ := by
  unfold find_last_options
  rw [leafExtend_foldl]

lemma find_first_options_eq {obj : GoObj} {root_key : String}
    {split : Option SplitSpec} (h : slicedZipped obj root_key split ≠ []) :
    find_first_options obj root_key split =
      Except.ok (treeOne obj root_key split, slicedZipped obj root_key split,
        (slicedZipped obj root_key split).length) := by
  unfold find_first_options treeOne
  cases hz : slicedZipped obj root_key split with
  | nil => exact absurd hz h
  | cons a l => simp [hz]

lemma keys_search_ok {obj : GoObj} {root_key : String}
    {split : Option SplitSpec} (h : slicedZipped obj root_key split ≠ []) :
    keys_search obj split root_key =
      Except.ok ((treeThree obj root_key split).parents,
        (treeThree obj root_key split).labels,
        (treeThree obj root_key split).ids,
        ((slicedZipped obj root_key split).length,
         (find_mid_options (treeOne obj root_key split) obj root_key split).2,
         (find_last_options (treeTwo obj root_key split)
           (slicedZipped obj root_key split) obj root_key split).2)) := by
  unfold keys_search
  rw [find_first_options_eq h]
  rfl

lemma nodup_midFiltered (kvs : List (String × PyVal)) :
    (midFiltered kvs).Nodup :=
  (nodup_sortedDedup _).filter _

lemma mem_midFiltered {kvs : List (String × PyVal)} {x : String}
    (h : x ∈ midFiltered kvs) :
    x ∈ kvs.map Prod.fst ∧ pyEndsWith x "src" = false ∧
      pyEndsWith x "defaults" = false := by
  unfold midFiltered at h
  rcases List.mem_filter.mp h with ⟨hm, hp⟩
  rw [Bool.and_eq_true, Bool.not_eq_true', Bool.not_eq_true'] at hp
  exact ⟨mem_sortedDedup.mp hm, hp.1, hp.2⟩

lemma entryOk_midApplySplit {obj : GoObj} {labels : List String}
    {o : List (String × List String)} {split : Option SplitSpec}
    {label : String} (h : ∀ kv ∈ o, EntryOk obj labels kv) :
    ∀ kv ∈ midApplySplit o split label, EntryOk obj labels kv := by
  cases split with
  | none => simpa only [midApplySplit] using h
  | some s =>
    cases hs2 : s.level_2 with
    | none => simpa only [midApplySplit, hs2] using h
    | some p =>
      rcases p with ⟨a, b⟩
      cases hl : alistLookup o label with
      | none => simpa only [midApplySplit, hs2, hl] using h
      | some cur =>
        intro kv hkv
        simp only [midApplySplit, hs2, hl] at hkv
        rcases mem_alistInsert hkv with hkv | hkv
        · subst hkv
          rcases h _ (alistLookup_mem hl) with ⟨h1, h2, h3⟩
          exact ⟨h1, h2.sublist (pySlice_sublist a b cur),
            fun x hx => h3 x ((pySlice_sublist a b cur).mem hx)⟩
        · exact h kv hkv

lemma entryOk_midStep {obj : GoObj} {labels : List String}
    {acc : List (String × List String) × Nat} {split : Option SplitSpec}
    {label : String} (h : ∀ kv ∈ acc.1, EntryOk obj labels kv)
    (hlab : label ∈ labels) :
    ∀ kv ∈ (midStep obj split acc label).1, EntryOk obj labels kv := by
  cases hl : alistLookup obj.attrs label with
  | none => simpa only [midStep, hl] using h
  | some v =>
    cases v with
    | blob => simpa only [midStep, hl] using h
    | scalar =>
      intro kv hkv
      simp only [midStep, hl] at hkv
      exact entryOk_midApplySplit h kv hkv
    | node kvs =>
      intro kv hkv
      simp only [midStep, hl] at hkv
      refine entryOk_midApplySplit ?_ kv hkv
      intro kv' hkv'
      rcases mem_alistInsert hkv' with hkv' | hkv'
      · subst hkv'
        refine ⟨hlab, nodup_midFiltered kvs, fun x hx => ?_⟩
        unfold midCandidates
        rw [hl]
        exact hx
      · exact h kv' hkv'

lemma keysNodup_midApplySplit {o : List (String × List String)}
    {split : Option SplitSpec} {label : String} (h : KeysNodup o) :
    KeysNodup (midApplySplit o split label) := by
  cases split with
  | none => simpa only [midApplySplit] using h
  | some s =>
    cases hs2 : s.level_2 with
    | none => simpa only [midApplySplit, hs2] using h
    | some p =>
      rcases p with ⟨a, b⟩
      cases hl : alistLookup o label with
      | none => simpa only [midApplySplit, hs2, hl] using h
      | some cur =>
        simp only [midApplySplit, hs2, hl]
        exact keysNodup_alistInsert h

lemma keysNodup_midStep {obj : GoObj}
    {acc : List (String × List String) × Nat} {split : Option SplitSpec}
    {label : String} (h : KeysNodup acc.1) :
    KeysNodup (midStep obj split acc label).1 := by
  cases hl : alistLookup obj.attrs label with
  | none => simpa only [midStep, hl] using h
  | some v =>
    cases v with
    | blob => simpa only [midStep, hl] using h
    | scalar =>
      simp only [midStep, hl]
      exact keysNodup_midApplySplit h
    | node kvs =>
      simp only [midStep, hl]
      exact keysNodup_midApplySplit (keysNodup_alistInsert h)

lemma midFold_inv {obj : GoObj} {labels : List String}
    {split : Option SplitSpec} :
    ∀ (ls : List String) (acc : List (String × List String) × Nat),
      (∀ kv ∈ acc.1, EntryOk obj labels kv) → KeysNodup acc.1 →
      (∀ l ∈ ls, l ∈ labels) →
      (∀ kv ∈ (ls.foldl (midStep obj split) acc).1, EntryOk obj labels kv) ∧
        KeysNodup (ls.foldl (midStep obj split) acc).1
  | [], acc, h1, h2, _ => ⟨h1, h2⟩
  | l :: rest, acc, h1, h2, hls => by
    rw [List.foldl_cons]
    exact midFold_inv rest (midStep obj split acc l)
      (entryOk_midStep h1 (hls l (List.mem_cons_self l rest)))
      (keysNodup_midStep h2)
      (fun x hx => hls x (List.mem_cons_of_mem l hx))

lemma midOptionsOf_entryOk {obj : GoObj} {split : Option SplitSpec}
    {labels : List String} :
    ∀ kv ∈ midOptionsOf obj split labels, EntryOk obj labels kv :=
  (midFold_inv labels ([], 0) (by simp) (by simp [KeysNodup])
    (fun l hl => hl)).1

lemma midOptionsOf_keysNodup {obj : GoObj} {split : Option SplitSpec}
    {labels : List String} : KeysNodup (midOptionsOf obj split labels) :=
  (midFold_inv labels ([], 0) (by simp) (by simp [KeysNodup])
    (fun l hl => hl)).2

lemma midApplySplit_absent {o : List (String × List String)}
    {split : Option SplitSpec} {label label' : String}
    (h : alistLookup o label' = none) :
    alistLookup (midApplySplit o split label) label' = none := by
  cases split with
  | none => simpa only [midApplySplit] using h
  | some s =>
    cases hs2 : s.level_2 with
    | none => simpa only [midApplySplit, hs2] using h
    | some p =>
      rcases p with ⟨a, b⟩
      cases hl : alistLookup o label with
      | none => simpa only [midApplySplit, hs2, hl] using h
      | some cur =>
        simp only [midApplySplit, hs2, hl]
        by_cases he : label = label'
        · subst he
          rw [hl] at h
          cases h
        · rw [alistLookup_alistInsert_ne he]
          exact h

lemma midStep_absent {obj : GoObj}
    {acc : List (String × List String) × Nat} {split : Option SplitSpec}
    {label label' : String}
    (hfail : alistLookup obj.attrs label' = none ∨
      alistLookup obj.attrs label' = some PyVal.blob)
    (h : alistLookup acc.1 label' = none) :
    alistLookup (midStep obj split acc label).1 label' = none := by
  cases hl : alistLookup obj.attrs label with
  | none => simpa only [midStep, hl] using h
  | some v =>
    cases v with
    | blob => simpa only [midStep, hl] using h
    | scalar =>
      simp only [midStep, hl]
      exact midApplySplit_absent h
    | node kvs =>
      simp only [midStep, hl]
      refine midApplySplit_absent ?_
      by_cases he : label = label'
      · subst he
        rw [hl] at hfail
        rcases hfail with hfail | hfail <;> cases hfail
      · rw [alistLookup_alistInsert_ne he]
        exact h

lemma midOptionsOf_absent {obj : GoObj} {split : Option SplitSpec}
    {label' : String}
    (hfail : alistLookup obj.attrs label' = none ∨
      alistLookup obj.attrs label' = some PyVal.blob) :
    ∀ labels : List String,
      alistLookup (midOptionsOf obj split labels) label' = none := by
  suffices hgen : ∀ (ls : List String)
      (acc : List (String × List String) × Nat),
      alistLookup acc.1 label' = none →
      alistLookup ((ls.foldl (midStep obj split) acc)).1 label' = none by
    intro labels
    exact hgen labels ([], 0) rfl
  intro ls
  induction ls with
  | nil => intro acc h; exact h
  | cons l rest ih =>
    intro acc h
    rw [List.foldl_cons]
    exact ih (midStep obj split acc l) (midStep_absent hfail h)

lemma parentOk_append {ps1 ids1 ps2 ids2 : List String}
    (hlen : ps1.length = ids1.length) (h1 : ParentOk ps1 ids1)
    (hmem : ∀ x ∈ ps2, x ∈ ids1) :
    ParentOk (ps1 ++ ps2) (ids1 ++ ids2) := by
  intro i hi hpos
  by_cases hcase : i < ps1.length
  · rw [List.getElem_append_left hcase]
    have hle : i ≤ ids1.length := le_of_lt (hlen ▸ hcase)
    rw [List.take_append_of_le_length hle]
    exact h1 i hcase hpos
  · push_neg at hcase
    rw [List.getElem_append_right hcase]
    have hb : i - ps1.length < ps2.length := by
      rw [List.length_append] at hi
      omega
    have hx : ps2[i - ps1.length] ∈ ids1 := hmem _ (List.getElem_mem hb)
    rw [List.take_append_eq_append_take]
    refine List.mem_append_left _ ?_
    rwa [List.take_of_length_le (by omega)]

lemma parentOk_root {c : String} {ps ids : List String}
    (h : ∀ x ∈ ps, x = c) : ParentOk ("" :: ps) (c :: ids) := by
  intro i hi hpos
  cases i with
  | zero => omega
  | succ j =>
    have hj : j < ps.length := by
      simpa using hi
    have : ("" :: ps)[j + 1] = ps[j] := rfl
    rw [this, h _ (List.getElem_mem hj)]
    show c ∈ (c :: ids).take (j + 1)
    rw [List.take_succ_cons]
    exact List.mem_cons_self _ _

lemma mem_slicedZipped {obj : GoObj} {root_key : String}
    {split : Option SplitSpec} {t : Triple}
    (h : t ∈ slicedZipped obj root_key split) : t ∈ rootZipped obj root_key :=
  mem_applyRange h

lemma rootZipped_empty_rk (obj : GoObj) :
    rootZipped obj "" =
      ("", obj.className, obj.className) ::
        (mainKeys obj).map (fun k => (obj.className, k, k)) := by
  unfold rootZipped
  simp

lemma mem_rootZipped_empty {obj : GoObj} {t : Triple}
    (h : t ∈ rootZipped obj "") :
    t = ("", obj.className, obj.className) ∨
      ∃ k ∈ mainKeys obj, t = (obj.className, k, k) := by
  rw [rootZipped_empty_rk] at h
  rcases List.mem_cons.mp h with h | h
  · exact Or.inl h
  · rcases List.mem_map.mp h with ⟨k, hk, hkt⟩
    exact Or.inr ⟨k, hk, hkt.symm⟩

lemma treeOne_labels_eq_ids (obj : GoObj) (split : Option SplitSpec) :
    (treeOne obj "" split).labels = (treeOne obj "" split).ids := by
  unfold treeOne unzipTriples
  refine List.map_congr_left ?_
  intro t ht
  rcases mem_rootZipped_empty (mem_slicedZipped ht) with h | ⟨k, _, h⟩ <;>
    subst h <;> rfl

lemma treeOne_lengths (obj : GoObj) (root_key : String)
    (split : Option SplitSpec) :
    (treeOne obj root_key split).parents.length =
        (treeOne obj root_key split).ids.length ∧
      (treeOne obj root_key split).labels.length =
        (treeOne obj root_key split).ids.length := by
  unfold treeOne unzipTriples
  simp

lemma keepsHead_sliced {obj : GoObj} {split : Option SplitSpec}
    (hk : KeepsHead split) :
    ∃ rest,
      slicedZipped obj "" split =
        ("", obj.className, obj.className) :: rest ∧
        ∀ t ∈ rest, ∃ k, t = (obj.className, k, k) := by
  unfold KeepsHead at hk
  unfold slicedZipped applyRange
  cases hr : level1Range split with
  | none =>
    rw [rootZipped_empty_rk]
    exact ⟨_, rfl, fun t ht => by
      rcases List.mem_map.mp ht with ⟨k, _, hkt⟩
      exact ⟨k, hkt.symm⟩⟩
  | some p =>
    rcases p with ⟨a, b⟩
    rw [hr] at hk
    rcases hk with ⟨ha, hb⟩
    subst ha
    show ∃ rest, pySlice 0 b (rootZipped obj "") = _ ∧ _
    rcases Nat.exists_eq_add_of_le hb with ⟨b', rfl⟩
    rw [rootZipped_empty_rk]
    unfold pySlice
    rw [List.drop_zero, Nat.add_comm 1 b', List.take_succ_cons]
    refine ⟨_, rfl, fun t ht => ?_⟩
    rcases List.mem_map.mp (List.take_subset _ _ ht) with ⟨k, _, hkt⟩
    exact ⟨k, hkt.symm⟩

lemma midParentStr_empty (k : String) : midParentStr "" k = k := by
  simp [midParentStr]

lemma midP_length_eq_midI (root_key : String)
    (opts : List (String × List String)) :
    (midP root_key opts).length = (midI root_key opts).length := by
  unfold midP midI
  exact length_flatMapL_congr (fun kv _ => by simp)

lemma leafP_length_eq_leafI (obj : GoObj) (split : Option SplitSpec)
    (root_key : String) (diff : List Triple) :
    (leafP obj split root_key diff).length =
      (leafI obj split root_key diff).length := by
  unfold leafP leafI
  exact length_flatMapL_congr (fun t _ => by simp)

lemma mem_zipDiff {tree : Tree} {zipped : List Triple} {t : Triple}
    (h : t ∈ zipDiff tree zipped) :
    t ∈ zip3 tree.parents tree.labels tree.ids ∧ t ∉ zipped := by
  unfold zipDiff at h
  rcases List.mem_filter.mp h with ⟨hm, hc⟩
  refine ⟨List.mem_dedup.mp (mem_isort.mp hm), ?_⟩
  intro hmem
  rw [Bool.not_eq_true'] at hc
  have hct : zipped.contains t = true := List.elem_eq_true_of_mem hmem
  rw [hct] at hc
  cases hc

lemma mem_midP_ids {obj : GoObj} {split : Option SplitSpec}
    {labels : List String} {x : String}
    (h : x ∈ midP "" (midOptionsOf obj split labels)) : x ∈ labels := by
  unfold midP at h
  rcases mem_flatMapL.mp h with ⟨kv, hkv, hx⟩
  rcases List.eq_of_mem_replicate hx with rfl
  rw [midParentStr_empty]
  exact (midOptionsOf_entryOk kv hkv).1

lemma mem_leafP_ids {obj : GoObj} {split : Option SplitSpec}
    {tree : Tree} {zipped : List Triple} {x : String}
    (h : x ∈ leafP obj split "" (zipDiff tree zipped)) : x ∈ tree.ids := by
  unfold leafP at h
  rcases mem_flatMapL.mp h with ⟨t, ht, hx⟩
  rcases List.eq_of_mem_replicate hx with rfl
  exact mem_zip3_third (mem_zipDiff ht).1

lemma treeTwo_decomp (obj : GoObj) (split : Option SplitSpec) :
    treeTwo obj "" split =
      ⟨(treeOne obj "" split).parents ++
          midP "" (midOptionsOf obj split (treeOne obj "" split).labels),
        (treeOne obj "" split).labels ++
          midL (midOptionsOf obj split (treeOne obj "" split).labels),
        (treeOne obj "" split).ids ++
          midI "" (midOptionsOf obj split (treeOne obj "" split).labels)⟩ := by
  unfold treeTwo
  rw [find_mid_options_eq]

lemma treeThree_decomp (obj : GoObj) (split : Option SplitSpec) :
    treeThree obj "" split =
      ⟨(treeTwo obj "" split).parents ++
          leafP obj split ""
            (zipDiff (treeTwo obj "" split) (slicedZipped obj "" split)),
        (treeTwo obj "" split).labels ++
          leafL obj split ""
            (zipDiff (treeTwo obj "" split) (slicedZipped obj "" split)),
        (treeTwo obj "" split).ids ++
          leafI obj split ""
            (zipDiff (treeTwo obj "" split) (slicedZipped obj "" split))⟩ := by
  unfold treeThree
  rw [find_last_options_tree]

lemma parentOk_treeTwo (obj : GoObj) (split : Option SplitSpec)
    {rest : List Triple}
    (hsl : slicedZipped obj "" split =
      ("", obj.className, obj.className) :: rest)
    (hrest : ∀ t ∈ rest, ∃ k, t = (obj.className, k, k)) :
    ParentOk (treeTwo obj "" split).parents (treeTwo obj "" split).ids := by
  have hT1 : treeOne obj "" split =
      ⟨"" :: rest.map (fun t => t.1),
        obj.className :: rest.map (fun t => t.2.1),
        obj.className :: rest.map (fun t => t.2.2)⟩ := by
    unfold treeOne
    rw [hsl]
    rfl
  rw [treeTwo_decomp]
  refine parentOk_append (treeOne_lengths obj "" split).1 ?_ ?_
  · rw [hT1]
    refine parentOk_root ?_
    intro x hx
    rcases List.mem_map.mp hx with ⟨t, ht, hxt⟩
    rcases hrest t ht with ⟨k, rfl⟩
    exact hxt.symm
  · intro x hx
    rw [← treeOne_labels_eq_ids]
    exact mem_midP_ids hx

/-- C3 (corrected): whenever the level-1 filter retains the root triple
(no filter, or a slice starting at 0 with positive end), the tree built
by `keys_search` at the default empty root key is well-formed: the first
parent is the empty string and every later parent was emitted earlier in
the id sequence. The unamended claim fails when the filter drops the
root triple. -/
theorem keys_search_tree_wellformed {obj : GoObj} {split : Option SplitSpec}
    {ps ls ids : List String} {cnts : Nat × Nat × Nat}
    (hk : KeepsHead split)
    (h : keys_search obj split "" = Except.ok (ps, ls, ids, cnts)) :
    ps.head? = some "" ∧ ps.length = ids.length ∧ ParentOk ps ids := by
  obtain ⟨rest, hsl, hrest⟩ := @keepsHead_sliced obj split hk
  have hne : slicedZipped obj "" split ≠ [] := by
    rw [hsl]
    simp
  rw [keys_search_ok hne] at h
  have h' := Except.ok.inj h
  simp only [Prod.mk.injEq] at h'
  obtain ⟨hps, _, hids, _⟩ := h'
  subst hps
  subst hids
  have hT1 : treeOne obj "" split =
      ⟨"" :: rest.map (fun t => t.1),
        obj.className :: rest.map (fun t => t.2.1),
        obj.className :: rest.map (fun t => t.2.2)⟩ := by
    unfold treeOne
    rw [hsl]
    rfl
  have hlen2 : (treeTwo obj "" split).parents.length =
      (treeTwo obj "" split).ids.length := by
    rw [treeTwo_decomp]
    simp only [List.length_append]
    rw [(treeOne_lengths obj "" split).1, midP_length_eq_midI]
  refine ⟨?_, ?_, ?_⟩
  · rw [treeThree_decomp, treeTwo_decomp, hT1]
    simp
  · rw [treeThree_decomp]
    simp only [List.length_append]
    rw [hlen2, leafP_length_eq_leafI]
  · rw [treeThree_decomp]
    refine parentOk_append hlen2 (parentOk_treeTwo obj split hsl hrest) ?_
    intro x hx
    exact mem_leafP_ids hx

lemma starFreeB_iff {s : String} : starFreeB s = true ↔ '*' ∉ s.data := by
  unfold starFreeB List.contains
  rw [Bool.not_eq_true', Bool.eq_false_iff]
  constructor
  · intro h hm
    exact h (List.elem_eq_true_of_mem hm)
  · intro h hc
    exact h (List.mem_of_elem_eq_true hc)

lemma append_cons_inj {x : Char} :
    ∀ {l1 l2 r1 r2 : List Char}, x ∉ l1 → x ∉ l2 →
      l1 ++ x :: r1 = l2 ++ x :: r2 → l1 = l2 ∧ r1 = r2 := by
  intro l1
  induction l1 with
  | nil =>
    intro l2 r1 r2 _ h2 h
    cases l2 with
    | nil => simpa using h
    | cons y l2' =>
      simp only [List.nil_append, List.cons_append, List.cons.injEq] at h
      exact absurd (h.1 ▸ List.mem_cons_self y l2') h2
  | cons y l1' ih =>
    intro l2 r1 r2 h1 h2 h
    cases l2 with
    | nil =>
      simp only [List.cons_append, List.nil_append, List.cons.injEq] at h
      exact absurd (h.1.symm ▸ List.mem_cons_self y l1') h1
    | cons z l2' =>
      simp only [List.cons_append, List.cons.injEq] at h
      rcases h with ⟨rfl, h⟩
      rcases ih (fun hm => h1 (List.mem_cons_of_mem _ hm))
        (fun hm => h2 (List.mem_cons_of_mem _ hm)) h with ⟨rfl, rfl⟩
      exact ⟨rfl, rfl⟩

lemma str_data_inj {a b : String} (h : a.data = b.data) : a = b :=
  congrArg String.mk h

lemma star_data (a b : String) :
    (a ++ "*" ++ b).data = a.data ++ '*' :: b.data := by
  show (a.data ++ '*' :: []) ++ b.data = a.data ++ '*' :: b.data
  simp

lemma star_inj {a b c d : String} (ha : '*' ∉ a.data) (hc : '*' ∉ c.data)
    (h : a ++ "*" ++ b = c ++ "*" ++ d) : a = c ∧ b = d := by
  have hd := congrArg String.data h
  rw [star_data, star_data] at hd
  rcases append_cons_inj ha hc hd with ⟨h1, h2⟩
  exact ⟨str_data_inj h1, str_data_inj h2⟩

lemma countStar_star (a b : String) :
    countStar (a ++ "*" ++ b) = countStar a + countStar b + 1 := by
  unfold countStar
  rw [star_data, List.count_append, List.count_cons_self]
  ring

lemma countStar_eq_zero {a : String} (h : '*' ∉ a.data) : countStar a = 0 :=
  List.count_eq_zero.mpr h

lemma str_append_assoc (a b c : String) : (a ++ b) ++ c = a ++ (b ++ c) :=
  str_data_inj (by
    show (a.data ++ b.data) ++ c.data = a.data ++ (b.data ++ c.data)
    rw [List.append_assoc])

lemma str_append_left_cancel {s x y : String} (h : s ++ x = s ++ y) :
    x = y := by
  have hd := congrArg String.data h
  have hd' : s.data ++ x.data = s.data ++ y.data := hd
  exact str_data_inj (List.append_cancel_left hd')

lemma objStarFree_className {obj : GoObj} (hS : objStarFreeB obj = true) :
    '*' ∉ obj.className.data := by
  unfold objStarFreeB at hS
  rw [Bool.and_eq_true, Bool.and_eq_true] at hS
  exact starFreeB_iff.mp hS.1.1

lemma objStarFree_ctorParams {obj : GoObj} (hS : objStarFreeB obj = true) :
    ∀ p ∈ obj.ctorParams, '*' ∉ p.data := by
  unfold objStarFreeB at hS
  rw [Bool.and_eq_true, Bool.and_eq_true] at hS
  intro p hp
  exact starFreeB_iff.mp (List.all_eq_true.mp hS.1.2 p hp)

lemma objStarFree_attrs {obj : GoObj} (hS : objStarFreeB obj = true) :
    ∀ kv ∈ obj.attrs, keysStarFree2B kv.2 = true := by
  unfold objStarFreeB at hS
  rw [Bool.and_eq_true, Bool.and_eq_true] at hS
  exact List.all_eq_true.mp hS.2

lemma midCandidates_starFree {obj : GoObj} {k x : String}
    (hS : objStarFreeB obj = true) (hx : x ∈ midCandidates obj k) :
    '*' ∉ x.data := by
  unfold midCandidates at hx
  cases hl : alistLookup obj.attrs k with
  | none => rw [hl] at hx; cases hx
  | some v =>
    rw [hl] at hx
    cases v with
    | scalar => cases hx
    | blob => cases hx
    | node kvs =>
      rcases List.mem_map.mp (mem_midFiltered hx).1 with ⟨kv, hkv, rfl⟩
      have h2 := objStarFree_attrs hS _ (alistLookup_mem hl)
      unfold keysStarFree2B at h2
      have hall := List.all_eq_true.mp h2 kv hkv
      rw [Bool.and_eq_true] at hall
      exact starFreeB_iff.mp hall.1

lemma leafChildren_starFree {obj : GoObj} {split : Option SplitSpec}
    {root_key : String} {t : Triple} {x : String}
    (hS : objStarFreeB obj = true)
    (hx : x ∈ leafChildren obj split root_key t) : '*' ∉ x.data := by
  unfold leafChildren at hx
  cases hl : leafLookup obj (stripRootKey root_key t.1) t.2.1 with
  | none => rw [hl] at hx; cases hx
  | some v =>
    rw [hl] at hx
    cases v with
    | scalar => cases hx
    | blob => cases hx
    | node kvs2 =>
      have hx' := mem_applyRange hx
      rcases List.mem_filter.mp hx' with ⟨hm, _⟩
      rcases List.mem_map.mp (mem_sortedDedup.mp hm) with ⟨kv2, hkv2, rfl⟩
      unfold leafLookup at hl
      cases hl2 : alistLookup obj.attrs (stripRootKey root_key t.1) with
      | none => rw [hl2] at hl; cases hl
      | some v' =>
        rw [hl2] at hl
        cases v' with
        | scalar => cases hl
        | blob => cases hl
        | node kvs =>
          have h2 := objStarFree_attrs hS _ (alistLookup_mem hl2)
          unfold keysStarFree2B at h2
          have hall := List.all_eq_true.mp h2 _ (alistLookup_mem hl)
          rw [Bool.and_eq_true] at hall
          have h4 := hall.2
          unfold keysStarFree1B at h4
          exact starFreeB_iff.mp (List.all_eq_true.mp h4 kv2 hkv2)

lemma leafChildren_nodup (obj : GoObj) (split : Option SplitSpec)
    (root_key : String) (t : Triple) :
    (leafChildren obj split root_key t).Nodup := by
  unfold leafChildren
  cases leafLookup obj (stripRootKey root_key t.1) t.2.1 with
  | none => exact List.nodup_nil
  | some v =>
    cases v with
    | scalar => exact List.nodup_nil
    | blob => exact List.nodup_nil
    | node kvs2 =>
      exact ((nodup_sortedDedup _).filter _).sublist (applyRange_sublist _ _)

lemma treeOne_ids_sublist (obj : GoObj) (split : Option SplitSpec) :
    (treeOne obj "" split).ids.Sublist (obj.className :: mainKeys obj) := by
  unfold treeOne unzipTriples
  have h1 : (slicedZipped obj "" split).Sublist (rootZipped obj "") :=
    applyRange_sublist _ _
  have h2 := h1.map (fun t : Triple => t.2.2)
  refine h2.trans ?_
  rw [rootZipped_empty_rk]
  simp only [List.map_cons, List.map_map]
  have hcomp : ((fun t : Triple => t.2.2) ∘ fun k => (obj.className, k, k)) =
      fun k : String => k := rfl
  rw [hcomp, List.map_id']

lemma treeOne_labels_sublist (obj : GoObj) (split : Option SplitSpec) :
    (treeOne obj "" split).labels.Sublist
      (obj.className :: mainKeys obj) := by
  rw [treeOne_labels_eq_ids]
  exact treeOne_ids_sublist obj split

lemma mainKeys_starFree {obj : GoObj} (hS : objStarFreeB obj = true) :
    ∀ k ∈ mainKeys obj, '*' ∉ k.data := by
  intro k hk
  exact objStarFree_ctorParams hS k (List.mem_of_mem_filter hk)

lemma treeOne_ids_starFree {obj : GoObj} {split : Option SplitSpec}
    (hS : objStarFreeB obj = true) :
    ∀ x ∈ (treeOne obj "" split).ids, '*' ∉ x.data := by
  intro x hx
  rcases List.mem_cons.mp ((treeOne_ids_sublist obj split).mem hx) with h | h
  · exact h ▸ objStarFree_className hS
  · exact mainKeys_starFree hS x h

lemma treeOne_ids_nodup {obj : GoObj} {split : Option SplitSpec}
    (hN : obj.ctorParams.Nodup) (hC : obj.className ∉ obj.ctorParams) :
    (treeOne obj "" split).ids.Nodup := by
  refine (treeOne_ids_sublist obj split).nodup ?_
  refine List.nodup_cons.mpr ⟨?_, hN.filter _⟩
  intro hmem
  exact hC (List.mem_of_mem_filter hmem)

lemma treeOne_labels_starFree {obj : GoObj} {split : Option SplitSpec}
    (hS : objStarFreeB obj = true) :
    ∀ x ∈ (treeOne obj "" split).labels, '*' ∉ x.data := by
  rw [treeOne_labels_eq_ids]
  exact treeOne_ids_starFree hS

/-- The collected-options facts C6 needs: keys and candidates are
`*`-free and candidate lists are duplicate-free. -/
lemma opts_props {obj : GoObj} {split : Option SplitSpec}
    (hS : objStarFreeB obj = true) :
    ∀ kv ∈ midOptionsOf obj split (treeOne obj "" split).labels,
      '*' ∉ (kv.1 : String).data ∧ kv.2.Nodup ∧
        ∀ o ∈ kv.2, '*' ∉ (o : String).data := by
  intro kv hkv
  rcases midOptionsOf_entryOk kv hkv with ⟨hmem, hnodup, hcand⟩
  exact ⟨treeOne_labels_starFree hS kv.1 hmem, hnodup,
    fun o ho => midCandidates_starFree hS (hcand o ho)⟩

lemma midI_nodup {obj : GoObj} {split : Option SplitSpec}
    (hS : objStarFreeB obj = true) :
    (midI "" (midOptionsOf obj split (treeOne obj "" split).labels)).Nodup := by
  unfold midI
  refine nodup_flatMapL ?_ ?_
  · intro kv hkv
    rcases opts_props hS kv hkv with ⟨hk, hvN, hvS⟩
    refine hvN.map_on ?_
    intro o1 h1 o2 h2 heq
    simp only [midParentStr_empty] at heq
    exact (star_inj hk hk heq).2
  · refine List.Pairwise.imp_of_mem ?_ midOptionsOf_keysNodup
    intro a b ha hb hne x hxa hxb
    rcases List.mem_map.mp hxa with ⟨o1, _, rfl⟩
    rcases List.mem_map.mp hxb with ⟨o2, _, heq⟩
    simp only [midParentStr_empty] at heq
    rcases opts_props hS a ha with ⟨hka, _, _⟩
    rcases opts_props hS b hb with ⟨hkb, _, _⟩
    exact hne ((star_inj hkb hka heq).1).symm

lemma countStar_midI {obj : GoObj} {split : Option SplitSpec}
    (hS : objStarFreeB obj = true) :
    ∀ x ∈ midI "" (midOptionsOf obj split (treeOne obj "" split).labels),
      countStar x = 1 := by
  intro x hx
  unfold midI at hx
  rcases mem_flatMapL.mp hx with ⟨kv, hkv, hxm⟩
  rcases List.mem_map.mp hxm with ⟨o, ho, rfl⟩
  rcases opts_props hS kv hkv with ⟨hk, _, hvS⟩
  rw [midParentStr_empty, countStar_star, countStar_eq_zero hk,
    countStar_eq_zero (hvS o ho)]

lemma zip3_mid_blocks (root_key : String) :
    ∀ opts : List (String × List String),
      zip3 (midP root_key opts) (midL opts) (midI root_key opts) =
        flatMapL (fun kv => kv.2.map (fun o =>
          (midParentStr root_key kv.1, o,
            midParentStr root_key kv.1 ++ "*" ++ o))) opts
  | [] => rfl
  | kv :: rest => by
    show zip3
      (List.replicate kv.2.length (midParentStr root_key kv.1) ++
        midP root_key rest)
      (kv.2 ++ midL rest)
      (kv.2.map (fun o => midParentStr root_key kv.1 ++ "*" ++ o) ++
        midI root_key rest) = _
    rw [zip3_append (by simp) (by simp), zip3_replicate_map,
      zip3_mid_blocks root_key rest]
    rfl

lemma zip3_treeOne (obj : GoObj) (root_key : String)
    (split : Option SplitSpec) :
    zip3 (treeOne obj root_key split).parents
      (treeOne obj root_key split).labels
      (treeOne obj root_key split).ids = slicedZipped obj root_key split :=
  zip3_maps _

lemma mem_zipDiff_mid {obj : GoObj} {split : Option SplitSpec} {t : Triple}
    (ht : t ∈ zipDiff (treeTwo obj "" split) (slicedZipped obj "" split)) :
    ∃ kv ∈ midOptionsOf obj split (treeOne obj "" split).labels,
      ∃ o ∈ kv.2, t = (kv.1, o, kv.1 ++ "*" ++ o) := by
  rcases mem_zipDiff ht with ⟨hmem, hnot⟩
  rw [treeTwo_decomp] at hmem
  simp only [] at hmem
  rw [zip3_append (by
      rw [(treeOne_lengths obj "" split).2, (treeOne_lengths obj "" split).1])
    (by rw [(treeOne_lengths obj "" split).1]), zip3_treeOne] at hmem
  rcases List.mem_append.mp hmem with hmem | hmem
  · exact absurd hmem hnot
  · rw [zip3_mid_blocks] at hmem
    rcases mem_flatMapL.mp hmem with ⟨kv, hkv, hxm⟩
    rcases List.mem_map.mp hxm with ⟨o, ho, rfl⟩
    rw [midParentStr_empty]
    exact ⟨kv, hkv, o, ho, rfl⟩

lemma star2_data (a b c : String) :
    (a ++ "*" ++ b ++ "*" ++ c).data =
      a.data ++ '*' :: (b.data ++ '*' :: c.data) := by
  show (((a.data ++ '*' :: []) ++ b.data) ++ '*' :: []) ++ c.data = _
  simp

lemma zipDiff_nodup (tree : Tree) (zipped : List Triple) :
    (zipDiff tree zipped).Nodup :=
  (nodup_isort (List.nodup_dedup _)).filter _

lemma leafI_nodup {obj : GoObj} {split : Option SplitSpec}
    (hS : objStarFreeB obj = true) :
    (leafI obj split ""
      (zipDiff (treeTwo obj "" split) (slicedZipped obj "" split))).Nodup := by
  unfold leafI
  refine nodup_flatMapL ?_ ?_
  · intro t _
    refine (leafChildren_nodup obj split "" t).map_on ?_
    intro k1 _ k2 _ heq
    exact str_append_left_cancel heq
  · refine List.Pairwise.imp_of_mem ?_ (zipDiff_nodup _ _)
    intro a b ha hb hne x hxa hxb
    rcases List.mem_map.mp hxa with ⟨c1, hc1, rfl⟩
    rcases List.mem_map.mp hxb with ⟨c2, hc2, heq⟩
    rcases mem_zipDiff_mid ha with ⟨kva, hkva, oa, hoa, rfl⟩
    rcases mem_zipDiff_mid hb with ⟨kvb, hkvb, ob, hob, rfl⟩
    rcases opts_props hS kva hkva with ⟨hka, _, hvSa⟩
    rcases opts_props hS kvb hkvb with ⟨hkb, _, hvSb⟩
    have hda := congrArg String.data heq
    rw [star2_data, star2_data] at hda
    rcases append_cons_inj hkb hka hda with ⟨hd1, hd2⟩
    rcases append_cons_inj (hvSb ob hob) (hvSa oa hoa) hd2 with ⟨hd3, _⟩
    exact hne (by rw [str_data_inj hd1, str_data_inj hd3])

lemma countStar_leafI {obj : GoObj} {split : Option SplitSpec}
    (hS : objStarFreeB obj = true) :
    ∀ x ∈ leafI obj split ""
        (zipDiff (treeTwo obj "" split) (slicedZipped obj "" split)),
      countStar x = 2 := by
  intro x hx
  unfold leafI at hx
  rcases mem_flatMapL.mp hx with ⟨t, ht, hxm⟩
  rcases List.mem_map.mp hxm with ⟨c, hc, rfl⟩
  rcases mem_zipDiff_mid ht with ⟨kv, hkv, o, ho, rfl⟩
  rcases opts_props hS kv hkv with ⟨hk, _, hvS⟩
  show countStar (kv.1 ++ "*" ++ o ++ "*" ++ c) = 2
  rw [countStar_star, countStar_star, countStar_eq_zero hk,
    countStar_eq_zero (hvS o ho),
    countStar_eq_zero (leafChildren_starFree hS hc)]

lemma keys_search_error {obj : GoObj} {root_key : String}
    {split : Option SplitSpec} (h : slicedZipped obj root_key split = []) :
    keys_search obj split root_key =
      Except.error "ValueError: not enough values to unpack" := by
  unfold keys_search find_first_options
  rw [h]

/-- C6: for any object whose class name and walkable key names contain
no `*` and whose constructor parameters are distinct and distinct from
the class name (true of every plotly graph object, whose names are
Python identifiers), all ids returned by `keys_search` at the default
empty root key are pairwise distinct. -/
theorem keys_search_nodup_ids {obj : GoObj} {split : Option SplitSpec}
    {ps ls ids : List String} {cnts : Nat × Nat × Nat}
    (hS : objStarFreeB obj = true) (hN : obj.ctorParams.Nodup)
    (hC : obj.className ∉ obj.ctorParams)
    (h : keys_search obj split "" = Except.ok (ps, ls, ids, cnts)) :
    ids.Nodup := by
  by_cases hne : slicedZipped obj "" split = []
  · rw [keys_search_error hne] at h
    cases h
  · rw [keys_search_ok hne] at h
    have h' := Except.ok.inj h
    simp only [Prod.mk.injEq] at h'
    obtain ⟨_, _, hids, _⟩ := h'
    subst hids
    have h2ids : (treeTwo obj "" split).ids =
        (treeOne obj "" split).ids ++
          midI "" (midOptionsOf obj split (treeOne obj "" split).labels) := by
      rw [treeTwo_decomp]
    have h3ids : (treeThree obj "" split).ids =
        (treeTwo obj "" split).ids ++
          leafI obj split ""
            (zipDiff (treeTwo obj "" split) (slicedZipped obj "" split)) := by
      rw [treeThree_decomp]
    rw [h3ids]
    have hmid2 : ∀ x ∈ (treeTwo obj "" split).ids,
        countStar x = 0 ∨ countStar x = 1 := by
      intro x hx
      rw [h2ids] at hx
      rcases List.mem_append.mp hx with hx | hx
      · exact Or.inl (countStar_eq_zero (treeOne_ids_starFree hS x hx))
      · exact Or.inr (countStar_midI hS x hx)
    refine List.Nodup.append ?_ (leafI_nodup hS) ?_
    · rw [h2ids]
      refine List.Nodup.append (treeOne_ids_nodup hN hC) (midI_nodup hS) ?_
      intro x hx0 hx1
      have := countStar_eq_zero (treeOne_ids_starFree hS x hx0)
      have := countStar_midI hS x hx1
      omega
    · intro x hx2 hxl
      have := hmid2 x hx2
      have := countStar_leafI hS x hxl
      omega

lemma mainKeys_suffix {obj : GoObj} :
    ∀ k ∈ mainKeys obj, pyEndsWith k "src" = false ∧
      pyEndsWith k "defaults" = false := by
  intro k hk
  rcases List.mem_filter.mp hk with ⟨_, hp⟩
  simp only [Bool.and_eq_true, Bool.not_eq_true'] at hp
  exact ⟨hp.1.2, hp.2⟩

lemma treeOne_labels_suffix {obj : GoObj} {split : Option SplitSpec}
    (h1 : pyEndsWith obj.className "src" = false)
    (h2 : pyEndsWith obj.className "defaults" = false) :
    ∀ x ∈ (treeOne obj "" split).labels,
      pyEndsWith x "src" = false ∧ pyEndsWith x "defaults" = false := by
  intro x hx
  rcases List.mem_cons.mp ((treeOne_labels_sublist obj split).mem hx) with
    h | h
  · exact h ▸ ⟨h1, h2⟩
  · exact mainKeys_suffix x h

lemma midCandidates_suffix {obj : GoObj} {k x : String}
    (hx : x ∈ midCandidates obj k) :
    pyEndsWith x "src" = false ∧ pyEndsWith x "defaults" = false := by
  unfold midCandidates at hx
  cases hl : alistLookup obj.attrs k with
  | none => rw [hl] at hx; cases hx
  | some v =>
    rw [hl] at hx
    cases v with
    | scalar => cases hx
    | blob => cases hx
    | node kvs => exact (mem_midFiltered hx).2

lemma midL_suffix {obj : GoObj} {split : Option SplitSpec}
    {labels : List String} :
    ∀ x ∈ midL (midOptionsOf obj split labels),
      pyEndsWith x "src" = false ∧ pyEndsWith x "defaults" = false := by
  intro x hx
  unfold midL at hx
  rcases mem_flatMapL.mp hx with ⟨kv, hkv, hxv⟩
  exact midCandidates_suffix ((midOptionsOf_entryOk kv hkv).2.2 x hxv)

lemma leafChildren_src {obj : GoObj} {split : Option SplitSpec}
    {root_key : String} {t : Triple} {x : String}
    (hx : x ∈ leafChildren obj split root_key t) :
    pyEndsWith x "src" = false := by
  unfold leafChildren at hx
  cases hl : leafLookup obj (stripRootKey root_key t.1) t.2.1 with
  | none => rw [hl] at hx; cases hx
  | some v =>
    rw [hl] at hx
    cases v with
    | scalar => cases hx
    | blob => cases hx
    | node kvs2 =>
      rcases List.mem_filter.mp (mem_applyRange hx) with ⟨_, hp⟩
      rw [Bool.not_eq_true'] at hp
      exact hp

lemma leafL_src {obj : GoObj} {split : Option SplitSpec}
    {root_key : String} {diff : List Triple} :
    ∀ x ∈ leafL obj split root_key diff, pyEndsWith x "src" = false := by
  intro x hx
  unfold leafL at hx
  rcases mem_flatMapL.mp hx with ⟨t, _, hxv⟩
  exact leafChildren_src hxv

/-- C5 (corrected): provided the class name itself carries neither
suffix, no label `keys_search` emits at any level ends in `src`, and no
root- or mid-level label (the labels present after the mid pass) ends in
`defaults`. The unamended claim fails: the leaf pass filters only `src`,
so leaf labels such as `tickformatstopdefaults` can end in `defaults`. -/
theorem keys_search_suffix_exclusion {obj : GoObj} {split : Option SplitSpec}
    {ps ls ids : List String} {cnts : Nat × Nat × Nat}
    (h1 : pyEndsWith obj.className "src" = false)
    (h2 : pyEndsWith obj.className "defaults" = false)
    (h : keys_search obj split "" = Except.ok (ps, ls, ids, cnts)) :
    (∀ l ∈ ls, pyEndsWith l "src" = false) ∧
      ∀ l ∈ (treeTwo obj "" split).labels,
        pyEndsWith l "defaults" = false := by
  have hmidlab : (treeTwo obj "" split).labels =
      (treeOne obj "" split).labels ++
        midL (midOptionsOf obj split (treeOne obj "" split).labels) := by
    rw [treeTwo_decomp]
  constructor
  · by_cases hne : slicedZipped obj "" split = []
    · rw [keys_search_error hne] at h
      cases h
    · rw [keys_search_ok hne] at h
      have h' := Except.ok.inj h
      simp only [Prod.mk.injEq] at h'
      obtain ⟨_, hls, _, _⟩ := h'
      subst hls
      have h3lab : (treeThree obj "" split).labels =
          (treeTwo obj "" split).labels ++
            leafL obj split ""
              (zipDiff (treeTwo obj "" split) (slicedZipped obj "" split)) := by
        rw [treeThree_decomp]
      intro l hl
      rw [h3lab] at hl
      rcases List.mem_append.mp hl with hl | hl
      · rw [hmidlab] at hl
        rcases List.mem_append.mp hl with hl | hl
        · exact (treeOne_labels_suffix h1 h2 l hl).1
        · exact (midL_suffix l hl).1
      · exact leafL_src l hl
  · intro l hl
    rw [hmidlab] at hl
    rcases List.mem_append.mp hl with hl | hl
    · exact (treeOne_labels_suffix h1 h2 l hl).2
    · exact (midL_suffix l hl).2

lemma ksIsOk_of_nonempty {obj : GoObj} {split : Option SplitSpec}
    (hne : slicedZipped obj "" split ≠ []) : ksIsOk obj split = true := by
  unfold ksIsOk
  rw [keys_search_ok hne]

lemma leafChildren_fail {obj : GoObj} {split : Option SplitSpec}
    {root_key : String} {t : Triple}
    (h : leafLookup obj (stripRootKey root_key t.1) t.2.1 = none ∨
      leafLookup obj (stripRootKey root_key t.1) t.2.1 =
        some PyVal.blob) :
    leafChildren obj split root_key t = [] := by
  unfold leafChildren
  rcases h with h | h <;> rw [h]

lemma slicedZipped_none (obj : GoObj) (root_key : String) :
    slicedZipped obj root_key none = rootZipped obj root_key := rfl

lemma rootZipped_length (obj : GoObj) (root_key : String) :
    (rootZipped obj root_key).length = (mainKeys obj).length + 1 := by
  unfold rootZipped
  simp [Nat.add_comm]

lemma slicedZipped_of_level1_none {obj : GoObj} {root_key : String}
    {split : Option SplitSpec} (h : level1Range split = none) :
    slicedZipped obj root_key split = rootZipped obj root_key := by
  unfold slicedZipped
  rw [h]
  rfl

/-- C1 (corrected): with the default empty `root_key`, the root pass
emits `ids = [class_name] + main_keys` with no class-name prefix; the
`class_name + "*" + key` form of the claim is produced only when a
non-empty `root_key` is passed. -/
theorem find_first_default_root_ids (obj : GoObj) :
    find_first_options obj "" none =
      Except.ok
        (⟨"" :: List.replicate (mainKeys obj).length obj.className,
          obj.className :: mainKeys obj, obj.className :: mainKeys obj⟩,
         rootZipped obj "", (mainKeys obj).length + 1) := by
  have hne : slicedZipped obj "" none ≠ [] := by
    rw [slicedZipped_none, rootZipped_empty_rk]
    simp
  rw [find_first_options_eq hne, slicedZipped_none, rootZipped_length]
  have h1 : treeOne obj "" none =
      ⟨"" :: List.replicate (mainKeys obj).length obj.className,
        obj.className :: mainKeys obj, obj.className :: mainKeys obj⟩ := by
    unfold treeOne unzipTriples
    rw [slicedZipped_none, rootZipped_empty_rk]
    simp only [List.map_cons, List.map_map]
    have hp : ((fun t : Triple => t.1) ∘ fun k : String =>
        (obj.className, k, k)) = fun _ => obj.className := rfl
    have hl : ((fun t : Triple => t.2.1) ∘ fun k : String =>
        (obj.className, k, k)) = fun k => k := rfl
    have hi : ((fun t : Triple => t.2.2) ∘ fun k : String =>
        (obj.className, k, k)) = fun k => k := rfl
    rw [hp, hl, hi, List.map_const', List.map_id']
  rw [h1]

/-- C1 counterexample: on the model Bar object with the default empty
`root_key`, the root pass emits ids
`["Bar", "marker", "name", "x", "y"]`, not the claimed
`["Bar", "Bar*marker", "Bar*name", "Bar*x", "Bar*y"]`. -/
theorem find_first_default_root_ids_cex :
    find_first_options barObj "" none =
      Except.ok (⟨["", "Bar", "Bar", "Bar", "Bar"],
        ["Bar", "marker", "name", "x", "y"],
        ["Bar", "marker", "name", "x", "y"]⟩,
        [("", "Bar", "Bar"), ("Bar", "marker", "marker"),
         ("Bar", "name", "name"), ("Bar", "x", "x"), ("Bar", "y", "y")],
        5) ∧
      (["Bar", "marker", "name", "x", "y"] : List String) ≠
        ["Bar", "Bar*marker", "Bar*name", "Bar*x", "Bar*y"] :=
  ⟨rfl, by decide⟩

/-- C2 (corrected): the first count `keys_search` returns is the length
of the level-1-sliced zipped list, which equals `len(main_keys) + 1`
only when no level-1 range is present; a narrowing level-1 filter does
change it. -/
theorem keys_search_root_count {obj : GoObj} {split : Option SplitSpec}
    {ps ls ids : List String} {c1 c2 c3 : Nat}
    (h : keys_search obj split "" = Except.ok (ps, ls, ids, (c1, c2, c3))) :
    c1 = (slicedZipped obj "" split).length ∧
      (level1Range split = none → c1 = (mainKeys obj).length + 1) := by
  by_cases hne : slicedZipped obj "" split = []
  · rw [keys_search_error hne] at h
    cases h
  · rw [keys_search_ok hne] at h
    have h' := Except.ok.inj h
    simp only [Prod.mk.injEq] at h'
    obtain ⟨-, -, -, hc1, -⟩ := h'
    refine ⟨hc1.symm, fun hn => ?_⟩
    rw [← hc1, slicedZipped_of_level1_none hn, rootZipped_length]

/-- C2 counterexample: on the model Bar object with filter
`{level_1: {start: 1, end: 3}}`, the reported root count is 2, not the
claimed pre-slice value 5. -/
theorem keys_search_root_count_cex :
    ksFirstCount barObj splitL1_13 = 2 ∧
      (mainKeys barObj).length + 1 = 5 ∧ (2 : Nat) ≠ 5 :=
  ⟨rfl, rfl, by decide⟩

/-- C2 witness: the amended count statement instantiated on the model
Bar object with the `{level_1: {start: 1, end: 3}}` filter. -/
theorem keys_search_root_count_witness :
    (2 : Nat) = (slicedZipped barObj "" splitL1_13).length ∧
      (level1Range splitL1_13 = none →
        (2 : Nat) = (mainKeys barObj).length + 1) :=
  @keys_search_root_count barObj splitL1_13
    ["Bar", "Bar", "marker", "marker", "marker", "marker",
      "marker*colorbar", "marker*colorbar", "marker*colorbar",
      "marker*line", "marker*line"]
    ["marker", "name", "color", "colorbar", "line", "opacity",
      "bgcolor", "tickformatstopdefaults", "ticklen", "color", "width"]
    ["marker", "name", "marker*color", "marker*colorbar",
      "marker*line", "marker*opacity", "marker*colorbar*bgcolor",
      "marker*colorbar*tickformatstopdefaults", "marker*colorbar*ticklen",
      "marker*line*color", "marker*line*width"]
    2 4 3 rfl

/-- C3 counterexample: on the model Bar object with filter
`{level_1: {start: 1, end: 3}}` the root triple is sliced away, so the
first parent is `"Bar"` rather than the empty string and `"Bar"` is not
among the emitted ids: the parent reference dangles. -/
theorem keys_search_tree_wellformed_cex :
    (ksParents barObj splitL1_13).head? = some "Bar" ∧
      some "Bar" ≠ some "" ∧ "Bar" ∉ ksIds barObj splitL1_13 :=
  ⟨rfl, by decide, by decide⟩

/-- C3 witness: the amended well-formedness statement instantiated on the
model Bar object with no filter; the parent of the node at index 5
(label `color`, parent `marker`) was emitted earlier. -/
theorem keys_search_tree_wellformed_witness :
    (["", "Bar", "Bar", "Bar", "Bar", "marker", "marker", "marker",
      "marker", "marker*colorbar", "marker*colorbar", "marker*colorbar",
      "marker*line", "marker*line"] : List String).head? = some "" ∧
    "marker" ∈ (["Bar", "marker", "name", "x", "y", "marker*color",
      "marker*colorbar", "marker*line", "marker*opacity",
      "marker*colorbar*bgcolor", "marker*colorbar*tickformatstopdefaults",
      "marker*colorbar*ticklen", "marker*line*color",
      "marker*line*width"] : List String).take 5 :=
  ⟨(@keys_search_tree_wellformed barObj none
      ["", "Bar", "Bar", "Bar", "Bar", "marker", "marker", "marker",
        "marker", "marker*colorbar", "marker*colorbar", "marker*colorbar",
        "marker*line", "marker*line"]
      ["Bar", "marker", "name", "x", "y", "color", "colorbar",
        "line", "opacity", "bgcolor", "tickformatstopdefaults", "ticklen",
        "color", "width"]
      ["Bar", "marker", "name", "x", "y", "marker*color",
        "marker*colorbar", "marker*line", "marker*opacity",
        "marker*colorbar*bgcolor", "marker*colorbar*tickformatstopdefaults",
        "marker*colorbar*ticklen", "marker*line*color",
        "marker*line*width"]
      (5, 4, 3) trivial rfl).1,
   (@keys_search_tree_wellformed barObj none
      ["", "Bar", "Bar", "Bar", "Bar", "marker", "marker", "marker",
        "marker", "marker*colorbar", "marker*colorbar", "marker*colorbar",
        "marker*line", "marker*line"]
      ["Bar", "marker", "name", "x", "y", "color", "colorbar",
        "line", "opacity", "bgcolor", "tickformatstopdefaults", "ticklen",
        "color", "width"]
      ["Bar", "marker", "name", "x", "y", "marker*color",
        "marker*colorbar", "marker*line", "marker*opacity",
        "marker*colorbar*bgcolor", "marker*colorbar*tickformatstopdefaults",
        "marker*colorbar*ticklen", "marker*line*color",
        "marker*line*width"]
      (5, 4, 3) trivial rfl).2.2 5 (by decide) (by decide)⟩

/-- C4 (corrected): slicing itself never wraps around or raises, but when
the level-1 slice selects no triple at all, the subsequent
`zip(*zipped)` unpack raises `ValueError`; `keys_search` completes
without error exactly when the slice keeps at least one triple. -/
theorem keys_search_overshoot_behavior (obj : GoObj)
    (split : Option SplitSpec) :
    (slicedZipped obj "" split = [] →
      keys_search obj split "" =
        Except.error "ValueError: not enough values to unpack") ∧
    (slicedZipped obj "" split ≠ [] → ksIsOk obj split = true) :=
  ⟨fun h => keys_search_error h, fun h => ksIsOk_of_nonempty h⟩

/-- C4 counterexample: on the model Bar object, the overshooting filter
`{level_1: {start: 9, end: 12}}` empties the slice and `keys_search`
raises instead of returning an empty selection. -/
theorem keys_search_overshoot_cex :
    keys_search barObj splitL1_over "" =
      Except.error "ValueError: not enough values to unpack" ∧
    ksIsOk barObj splitL1_over = false :=
  ⟨rfl, rfl⟩

/-- C4 witness: both branches of the amended statement instantiated on
the model Bar object. -/
theorem keys_search_overshoot_behavior_witness :
    keys_search barObj splitL1_over "" =
      Except.error "ValueError: not enough values to unpack" ∧
    ksIsOk barObj none = true :=
  ⟨(keys_search_overshoot_behavior barObj splitL1_over).1 (by decide),
   (keys_search_overshoot_behavior barObj none).2 (by decide)⟩

/-- C5 counterexample: exploring the model Bar object with no filter
emits the leaf label `tickformatstopdefaults`, which ends in
`defaults`. -/
theorem keys_search_suffix_exclusion_cex :
    "tickformatstopdefaults" ∈ ksLabels barObj none ∧
      pyEndsWith "tickformatstopdefaults" "defaults" = true :=
  ⟨by decide, by decide⟩

/-- C5 witness: the amended suffix statement instantiated on the model
Bar object with no filter, at the leaf label `tickformatstopdefaults`
(for the `src` part) and the mid-pass label `marker` (for the
`defaults` part). -/
theorem keys_search_suffix_exclusion_witness :
    pyEndsWith "tickformatstopdefaults" "src" = false ∧
      pyEndsWith "marker" "defaults" = false :=
  ⟨(@keys_search_suffix_exclusion barObj none
      ["", "Bar", "Bar", "Bar", "Bar", "marker", "marker", "marker",
        "marker", "marker*colorbar", "marker*colorbar", "marker*colorbar",
        "marker*line", "marker*line"]
      ["Bar", "marker", "name", "x", "y", "color", "colorbar",
        "line", "opacity", "bgcolor", "tickformatstopdefaults", "ticklen",
        "color", "width"]
      ["Bar", "marker", "name", "x", "y", "marker*color",
        "marker*colorbar", "marker*line", "marker*opacity",
        "marker*colorbar*bgcolor", "marker*colorbar*tickformatstopdefaults",
        "marker*colorbar*ticklen", "marker*line*color",
        "marker*line*width"]
      (5, 4, 3) rfl rfl rfl).1 "tickformatstopdefaults"
      (by decide),
   (@keys_search_suffix_exclusion barObj none
      ["", "Bar", "Bar", "Bar", "Bar", "marker", "marker", "marker",
        "marker", "marker*colorbar", "marker*colorbar", "marker*colorbar",
        "marker*line", "marker*line"]
      ["Bar", "marker", "name", "x", "y", "color", "colorbar",
        "line", "opacity", "bgcolor", "tickformatstopdefaults", "ticklen",
        "color", "width"]
      ["Bar", "marker", "name", "x", "y", "marker*color",
        "marker*colorbar", "marker*line", "marker*opacity",
        "marker*colorbar*bgcolor", "marker*colorbar*tickformatstopdefaults",
        "marker*colorbar*ticklen", "marker*line*color",
        "marker*line*width"]
      (5, 4, 3) rfl rfl rfl).2 "marker" (by decide)⟩

/-- C6 witness: the id-uniqueness statement instantiated on the model Bar
object with no filter. -/
theorem keys_search_nodup_ids_witness :
    (["Bar", "marker", "name", "x", "y", "marker*color",
      "marker*colorbar", "marker*line", "marker*opacity",
      "marker*colorbar*bgcolor", "marker*colorbar*tickformatstopdefaults",
      "marker*colorbar*ticklen", "marker*line*color",
      "marker*line*width"] : List String).Nodup :=
  @keys_search_nodup_ids barObj none
    ["", "Bar", "Bar", "Bar", "Bar", "marker", "marker", "marker",
      "marker", "marker*colorbar", "marker*colorbar", "marker*colorbar",
      "marker*line", "marker*line"]
    ["Bar", "marker", "name", "x", "y", "color", "colorbar",
      "line", "opacity", "bgcolor", "tickformatstopdefaults", "ticklen",
      "color", "width"]
    ["Bar", "marker", "name", "x", "y", "marker*color",
      "marker*colorbar", "marker*line", "marker*opacity",
      "marker*colorbar*bgcolor", "marker*colorbar*tickformatstopdefaults",
      "marker*colorbar*ticklen", "marker*line*color",
      "marker*line*width"]
    (5, 4, 3) (by decide) (by decide) (by decide) rfl

/-- C7: `keys_search` is deterministic: any two results of calling it on
the same object, filter range and root key are equal. In the source all
candidate enumeration is wrapped in `sorted(...)` and the only dict
iterated is insertion-ordered, so the function's embedding is a pure
function of its arguments. -/
theorem keys_search_deterministic (obj : GoObj) (split : Option SplitSpec)
    (root_key : String)
    (r1 r2 : Except String
      (List String × List String × List String × (Nat × Nat × Nat)))
    (h1 : keys_search obj split root_key = r1)
    (h2 : keys_search obj split root_key = r2) : r1 = r2 :=
  h1.symm.trans h2

/-- C7 witness: two calls on the model Bar object with the filter
`{level_1: {start: 0, end: 1}}` agree on the concrete result. -/
theorem keys_search_deterministic_witness :
    (Except.ok ([""], ["Bar"], ["Bar"], ((1 : Nat), (0 : Nat), (0 : Nat)))
        : Except String
          (List String × List String × List String × (Nat × Nat × Nat))) =
      Except.ok ([""], ["Bar"], ["Bar"], (1, 0, 0)) :=
  keys_search_deterministic barObj (some ⟨some (0, 1), none, none⟩) "" _ _
    rfl rfl

/-- C8: lookup failures never escape: whenever the level-1 slice is
non-empty the whole build completes without error (the mid and leaf
passes are total); a label whose root lookup raises (absent key or
non-iterable value) gets no entry in the collected options, so it
contributes zero mid-level children; and a `zip_diff` triple whose
nested lookup raises contributes zero leaf-level children. -/
theorem keys_search_lookup_failures_skipped (obj : GoObj)
    (split : Option SplitSpec) (labels : List String) (label : String)
    (t : Triple) :
    (slicedZipped obj "" split ≠ [] → ksIsOk obj split = true) ∧
    ((alistLookup obj.attrs label = none ∨
        alistLookup obj.attrs label = some PyVal.blob) →
      alistLookup (midOptionsOf obj split labels) label = none) ∧
    ((leafLookup obj (stripRootKey "" t.1) t.2.1 = none ∨
        leafLookup obj (stripRootKey "" t.1) t.2.1 = some PyVal.blob) →
      leafChildren obj split "" t = []) :=
  ⟨fun hne => ksIsOk_of_nonempty hne,
   fun hf => midOptionsOf_absent hf labels,
   fun hf => leafChildren_fail hf⟩

/-- C8 witness: on the model Bar object, the build completes, the
non-iterable attribute `x` collects no options entry, and the absent
nested key `zzz` under `marker` contributes no leaf children. -/
theorem keys_search_lookup_failures_skipped_witness :
    ksIsOk barObj none = true ∧
      alistLookup
        (midOptionsOf barObj none ["Bar", "marker", "name", "x", "y"])
        "x" = none ∧
      leafChildren barObj none "" ("marker", "zzz", "marker*zzz") = [] :=
  ⟨(keys_search_lookup_failures_skipped barObj none
      ["Bar", "marker", "name", "x", "y"] "x"
      ("marker", "zzz", "marker*zzz")).1 (by decide),
   (keys_search_lookup_failures_skipped barObj none
      ["Bar", "marker", "name", "x", "y"] "x"
      ("marker", "zzz", "marker*zzz")).2.1 (Or.inr rfl),
   (keys_search_lookup_failures_skipped barObj none
      ["Bar", "marker", "name", "x", "y"] "x"
      ("marker", "zzz", "marker*zzz")).2.2 (Or.inl rfl)⟩

/-- C9 (code bug): on any transport failure of the HTTP fetch, the
`except` clause of `check_section_exists` only passes, so the following
`soup.find(id=section_id)` reads the never-assigned local `soup` and the
function raises `UnboundLocalError` instead of reporting that the
section is absent. -/
theorem check_section_exists_transport_error (url : String) :
    check_section_exists url FetchResult.requestError =
      Except.error
        "UnboundLocalError: local variable referenced before assignment" :=
  rfl

/-- C10: `create_go_info_item` returns a dictionary with exactly the keys
`object`, `url_post`, `url_pre_section` in insertion order, whose
`object` is a freshly constructed instance of the given type; an omitted
`url_post` defaults to the lowercase class name, and an omitted
`url_pre_section` defaults to the (possibly defaulted) `url_post`. -/
theorem create_go_info_item_spec (t : GoType) (post pre : Option String) :
    create_go_info_item t post pre =
      [("object", ItemVal.obj (constructInstance t)),
       ("url_post", ItemVal.str (post.getD t.name.toLower)),
       ("url_pre_section",
        ItemVal.str (pre.getD (post.getD t.name.toLower)))] := by
  cases post <;> cases pre <;> rfl

end PlotlyExplorer
